import Mathlib

/-!
Shallow embedding of the CEDEAR arbitrage pipeline (`src/app.py`):
the numeric normalizer `clean_price`, the ticker normalizer
`extract_ticker`, the header discovery `find_header_row`, the loader
`load_and_process`, the ticker inner join and the implied-rate / gap
arithmetic.  Strings are handled as `List Char`; Python floats are
modelled as exact rationals.
-/

namespace Cedear

/-- Characters matched by Python regex `\s` (the whitespace class used by
both the currency-token regex and `str.strip`). -/
def pyIsSpace (c : Char) : Bool :=
  c = ' ' || c = '\t' || c = '\n' || c = '\r' || c = '\x0b' || c = '\x0c'

/-- Drop the leading run of Python whitespace characters. -/
def dropLeadingWs : List Char → List Char
  | [] => []
  | c :: cs => if pyIsSpace c then dropLeadingWs cs else c :: cs

/-- Python `str.strip()` on a character list: remove leading and trailing
whitespace. -/
def pyStripChars (l : List Char) : List Char :=
  ((dropLeadingWs l).reverse |> dropLeadingWs).reverse

/-- Python `str.strip()` on a string. -/
def pyStrip (s : String) : String := ⟨pyStripChars s.data⟩

/-- Python lowercasing restricted to the characters this pipeline meets:
ASCII letters via `Char.toLower`, plus the accented capital of
the header marker word mapped to its lowercase form. -/
def pyLower (c : Char) : Char := if c = 'Í' then 'í' else c.toLower

/-- Substring test on character lists (Python `in` / `str.contains`). -/
def containsSub (pat : List Char) : List Char → Bool
  | [] => pat.isEmpty
  | c :: cs => pat.isPrefixOf (c :: cs) || containsSub pat cs

/-- One pass of Python `re.sub(r'(ARS|USD|\$)\s*', '', s, flags=IGNORECASE)`:
scan left to right; at each position, if a currency token matches
case-insensitively, drop it together with the following whitespace run and
continue after it, otherwise keep the character.  The fuel argument is the
length of the list, which bounds the number of steps since every step
consumes at least one character, so the fuel-exhausted branch is never
reached. -/
def stripCurrencyAux : ℕ → List Char → List Char
  | 0, l => l
  | _ + 1, [] => []
  | fuel + 1, c :: cs =>
    if c = '$' then stripCurrencyAux fuel (dropLeadingWs cs)
    else
      match cs with
      | c2 :: c3 :: rest =>
        if (pyLower c = 'a' && pyLower c2 = 'r' && pyLower c3 = 's') ||
            (pyLower c = 'u' && pyLower c2 = 's' && pyLower c3 = 'd') then
          stripCurrencyAux fuel (dropLeadingWs rest)
        else c :: stripCurrencyAux fuel cs
      | _ => c :: stripCurrencyAux fuel cs

/-- Removal of the currency-symbol tokens `ARS`, `USD`, `$` (each with the
whitespace that follows it), as the source's `re.sub` call does. -/
def stripCurrency (l : List Char) : List Char := stripCurrencyAux l.length l

/-- Numeric value of a digit-character list read as a decimal integer. -/
def digitsVal (l : List Char) : ℕ :=
  l.foldl (fun a c => 10 * a + (c.toNat - 48)) 0

/-- Python `float()` on a sign-stripped character list, restricted to
plain fixed-point decimal notation (digit run, optionally a single point
with a digit run around it, at least one digit in total): the value of
`ip.fp` is the concatenated digits over `10 ^ |fp|`.  Exponent,
underscore and inf/nan forms never arise from this pipeline's data and
fall to `none`. -/
def pyFloatCore (l : List Char) : Option ℚ :=
  let ip := l.takeWhile (fun c => c.isDigit)
  let rest := l.drop ip.length
  match rest with
  | [] => if ip.isEmpty then none else some (mkRat (digitsVal ip) 1)
  | '.' :: fp =>
    if fp.all (fun c => c.isDigit) && !(ip.isEmpty && fp.isEmpty) then
      some (mkRat (digitsVal (ip ++ fp)) (10 ^ fp.length))
    else none
  | _ => none

/-- Python `float()`: surrounding whitespace, then an optional sign, then a
fixed-point digit string; `none` models the `ValueError` branch. -/
def pyFloat (l : List Char) : Option ℚ :=
  match pyStripChars l with
  | '-' :: rest => (pyFloatCore rest).map (fun q => -q)
  | '+' :: rest => pyFloatCore rest
  | t => pyFloatCore t

/-- An untyped spreadsheet cell as the pipeline sees it: missing (`NaN`),
an integer, a nonnegative finite float given by its integer part and its
decimal digits (so that `str(val)` is `ip ++ "." ++ digits`, as Python
prints a float), or text. -/
inductive RawCell where
  | missing
  | intCell (n : ℤ)
  | floatCell (ip : ℕ) (frac : List (Fin 10))
  | textCell (s : String)
  deriving DecidableEq

/-- The character of a decimal digit. -/
def digitCharF (d : Fin 10) : Char := Char.ofNat (48 + d.val)

/-- Exact fractional value of a float cell's decimal digits. -/
def fracValF : List (Fin 10) → ℚ
  | [] => 0
  | d :: ds => ((d.val : ℚ) + fracValF ds) / 10

/-- Python `str(val)` for a cell (`astype(str)` turns `NaN` into `"nan"`). -/
def pyStrOfCell : RawCell → String
  | .missing => "nan"
  | .intCell n => toString n
  | .floatCell ip frac => toString ip ++ "." ++ ⟨frac.map digitCharF⟩
  | .textCell s => s

/-- The numeric value a numeric-typed cell holds (text and missing cells
have none). -/
def cellValue : RawCell → Option ℚ
  | .intCell n => some (n : ℚ)
  | .floatCell ip frac => some ((ip : ℚ) + fracValF frac)
  | _ => none

/-- Index of the first occurrence of `c` (Python `str.find`, only consulted
when `c` is present; returns the length when absent). -/
def firstIdxD (c : Char) : List Char → ℕ
  | [] => 0
  | d :: ds => if d = c then 0 else firstIdxD c ds + 1

/-- The separator-disambiguation block of `clean_price`: with both `,` and
`.` present, the earlier one is the thousands separator; a lone `,` is the
decimal separator; otherwise all `.` are removed as thousands separators. -/
def resolveSeparators (l : List Char) : List Char :=
  if l.contains ',' && l.contains '.' then
    if firstIdxD '.' l < firstIdxD ',' l then
      (l.filter (fun c => c ≠ '.')).map (fun c => if c = ',' then '.' else c)
    else
      l.filter (fun c => c ≠ ',')
  else if l.contains ',' then
    l.map (fun c => if c = ',' then '.' else c)
  else
    l.filter (fun c => c ≠ '.')

/-- `clean_price` from `src/app.py`: `None` for a missing cell or the `-`
placeholder; otherwise stringify, strip currency tokens and whitespace,
resolve the separators and parse as a float, with a failed parse giving
`None`. -/
def clean_price (val : RawCell) : Option ℚ :=
  match val with
  | .missing => none
  | v =>
    let s := pyStrOfCell v
    if pyStrip s = "-" then none
    else pyFloat (resolveSeparators (pyStripChars (stripCurrency s.data)))

/-- Characters before the first occurrence of `c` (Python
`s.split(c)[0]`). -/
def takeBefore (c : Char) (l : List Char) : List Char :=
  l.takeWhile (fun d => d ≠ c)

/-- Python `str.endswith('D')`. -/
def endsD (t : String) : Bool := t.data.getLast? == some 'D'

/-- Python `t[:-1]`. -/
def chopLast (t : String) : String := ⟨t.data.dropLast⟩

/-- `extract_ticker` from `src/app.py`: `None` for a missing symbol, else
the trimmed part before the first `|`, with one trailing `D` removed on
the USD file. -/
def extract_ticker (simbolo : Option String) (is_usd_file : Bool) :
    Option String :=
  match simbolo with
  | none => none
  | some s =>
    let ticker := pyStrip ⟨takeBefore '|' s.data⟩
    if is_usd_file && endsD ticker then some (chopLast ticker)
    else some ticker

/-- One parsed spreadsheet row: its `Símbolo` cell (`none` models `NaN`,
since the source dereferences it as a string otherwise) and its
`Último Precio` cell. -/
structure Row where
  simbolo : Option String
  ultimoPrecio : RawCell
  deriving DecidableEq

/-- Lines 88-95 of `src/app.py`: apply `extract_ticker` and `clean_price`
to every row, keep the `(Ticker, Precio)` pair, and `dropna()` the rows in
which either came out `None`. -/
def processRows (rows : List Row) (is_usd : Bool) : List (String × ℚ) :=
  rows.filterMap (fun r =>
    match extract_ticker r.simbolo is_usd, clean_price r.ultimoPrecio with
    | some t, some p => some (t, p)
    | _, _ => none)

/-- A header-parsed table: its column names and its rows. -/
structure Table where
  cols : List String
  rows : List Row

/-- Whether both required columns are present after trimming every column
name, as checked on line 84 of `src/app.py`. -/
def requiredColsPresent (t : Table) : Bool :=
  (t.cols.map pyStrip).contains "Símbolo" &&
    (t.cols.map pyStrip).contains "Último Precio"

/-- The `st.error` message of line 85, naming the file that failed. -/
def missingColsMessage (is_usd : Bool) : String :=
  "No se encontraron las columnas \x27Símbolo\x27 o \x27Último Precio\x27 en el archivo " ++
    (if is_usd then "USD" else "ARS") ++ "."

/-- `load_and_process` after header parsing: reject the table with the
error message when a required column is missing, otherwise produce the
cleaned `(Ticker, Precio)` records. -/
def load_and_process (t : Table) (is_usd : Bool) :
    Except String (List (String × ℚ)) :=
  if requiredColsPresent t then .ok (processRows t.rows is_usd)
  else .error (missingColsMessage is_usd)

/-- The `pd.merge` on `Ticker` (inner join): every ARS row paired with
every USD row carrying the same ticker, in order. -/
def matchRecords (dfArs dfUsd : List (String × ℚ)) :
    List (String × ℚ × ℚ) :=
  dfArs.flatMap (fun a =>
    dfUsd.filterMap (fun u =>
      if a.1 = u.1 then some (a.1, a.2, u.2) else none))

/-- One output row: ticker, both prices, the implied exchange rate and its
percentage gap against the reference MEP rate. -/
structure AnalysisRow where
  ticker : String
  precioArs : ℚ
  precioUsd : ℚ
  tcImplicito : ℚ
  gapPercent : ℚ
  deriving DecidableEq

/-- Lines 136 and 141 of `src/app.py`: `TC_Implicito = Precio_ARS /
Precio_USD` and `Gap_% = ((TC_Implicito / dolar_mep) - 1) * 100`.  (The
source divides IEEE floats, so a zero USD price yields `inf` there; the
rational model is only quoted at nonzero divisors.) -/
def computeRows (merged : List (String × ℚ × ℚ)) (dolar_mep : ℚ) :
    List AnalysisRow :=
  merged.map (fun m =>
    { ticker := m.1
      precioArs := m.2.1
      precioUsd := m.2.2
      tcImplicito := m.2.1 / m.2.2
      gapPercent := ((m.2.1 / m.2.2) / dolar_mep - 1) * 100 })

/-- Whether a raw row contains a cell whose string form contains the
header marker case-insensitively (`row.astype(str).str.contains("Símbolo",
case=False).any()`). -/
def rowHasSimbolo (row : List RawCell) : Bool :=
  row.any (fun cell =>
    containsSub ("símbolo".data) ((pyStrOfCell cell).data.map pyLower))

/-- Index of the first matching row, if any. -/
def findHeaderAux (p : List RawCell → Bool) :
    List (List RawCell) → Option ℕ
  | [] => none
  | r :: rs => if p r then some 0 else (findHeaderAux p rs).map (· + 1)

/-- `find_header_row` from `src/app.py`: the index of the first row that
contains the header marker, or `0` when no row does. -/
def find_header_row (g : List (List RawCell)) : ℕ :=
  (findHeaderAux rowHasSimbolo g).getD 0


/-! ## Helper lemmas -/

/-- Equation of `clean_price` on a text cell. -/
theorem clean_price_text (s : String) :
    clean_price (RawCell.textCell s) =
      if pyStrip s = "-" then none
      else pyFloat (resolveSeparators (pyStripChars (stripCurrency s.data))) :=
  rfl

/-- When no row matches, the header scan finds nothing. -/
theorem findHeaderAux_all_false (p : List RawCell → Bool) :
    ∀ g : List (List RawCell), (∀ r ∈ g, p r = false) →
      findHeaderAux p g = none := by
  intro g
  induction g with
  | nil => intro _; rfl
  | cons r rs ih =>
    intro h
    have hr : p r = false := h r (List.mem_cons_self r rs)
    have hrs := ih (fun x hx => h x (List.mem_cons_of_mem r hx))
    simp [findHeaderAux, hr, hrs]

/-- The header scan returns the index of the first matching row. -/
theorem findHeaderAux_first (p : List RawCell → Bool) :
    ∀ (g : List (List RawCell)) (i : ℕ) (row : List RawCell),
      g.get? i = some row → p row = true →
      (∀ r ∈ g.take i, p r = false) →
      findHeaderAux p g = some i := by
  intro g
  induction g with
  | nil => intro i row hget _ _; simp at hget
  | cons a t ih =>
    intro i row hget hp hprev
    cases i with
    | zero =>
      simp at hget
      subst hget
      simp [findHeaderAux, hp]
    | succ j =>
      have ha : p a = false := by
        apply hprev
        simp [List.take_succ_cons]
      have hrec := ih j row (by simpa using hget) hp
        (fun r hr => hprev r (by simp [List.take_succ_cons, hr]))
      simp [findHeaderAux, ha, hrec]

/-! ## Claims -/

/-- C1: the claim says a numeric-typed cell is returned unchanged, cast to
float, with no separator rewriting.  The code has no numeric-type path: it
stringifies the cell and, the string having no comma, strips its decimal
point as a thousands separator.  At the float cell `1400.5` the code
returns `14005.0` while the cell's value is `1400.5`. -/
theorem c1_numeric_cell_code_bug :
    clean_price (RawCell.floatCell 1400 [(5 : Fin 10)]) = some 14005 ∧
    cellValue (RawCell.floatCell 1400 [(5 : Fin 10)]) = some (2801 / 2) ∧
    ((14005 : ℚ) ≠ 2801 / 2) := by
  refine ⟨by decide,
    by norm_num [cellValue, fracValF, show ((5 : Fin 10) : ℕ) = 5 from rfl],
    by norm_num⟩

/-- C2 counterexample: on the unparseable price text `"abc"` the
normalizer does not substitute the zero sentinel (it yields `none`), and
the row does not remain in the loader's output (it is dropped). -/
theorem c2_counterexample :
    clean_price (RawCell.textCell "abc") ≠ some 0 ∧
    processRows [⟨some "GGAL| BYMA", RawCell.textCell "abc"⟩] false = [] := by
  refine ⟨by decide, by decide⟩

/-- C2 amended: a missing, blank, placeholder or unparseable price cell
makes `clean_price` return the `None` absence marker (never raising), and
the loader's `dropna` then removes that row from its output entirely. -/
theorem c2_amended (r : Row) (rs : List Row) (b : Bool)
    (h : clean_price r.ultimoPrecio = none) :
    clean_price RawCell.missing = none ∧
    clean_price (RawCell.textCell "") = none ∧
    clean_price (RawCell.textCell "-") = none ∧
    clean_price (RawCell.textCell "abc") = none ∧
    processRows (r :: rs) b = processRows rs b := by
  refine ⟨by decide, by decide, by decide, by decide, ?_⟩
  cases hx : extract_ticker r.simbolo b <;>
    simp [processRows, List.filterMap_cons, hx, h]

/-- Witness for C2 at the row `("GGAL| BYMA", "abc")`. -/
theorem c2_witness :
    clean_price (RawCell.textCell "abc") = none ∧
    processRows [⟨some "GGAL| BYMA", RawCell.textCell "abc"⟩] false =
      processRows [] false :=
  ⟨(c2_amended ⟨some "GGAL| BYMA", RawCell.textCell "abc"⟩ [] false
      (by decide)).2.2.2.1,
   (c2_amended ⟨some "GGAL| BYMA", RawCell.textCell "abc"⟩ [] false
      (by decide)).2.2.2.2⟩

/-- C3: for a price string that is not the `-` placeholder, `clean_price`
strips the currency tokens and whitespace and then resolves the
separators exactly as the claim describes — a `.` before a `,` removes
all dots and makes the comma the decimal point, a `,` before a `.`
removes all commas, a lone `,` becomes the decimal point, and with no
comma all dots are removed — before parsing the result as a float; in
particular `"1.400,50"` gives `1400.50`, `"2,115"` gives `2.115`,
`"1,000.50"` gives `1000.50` and `"1.500"` gives `1500`. -/
theorem c3_separator_rule (s : String) (h : pyStrip s ≠ "-") :
    clean_price (RawCell.textCell s) =
      pyFloat (resolveSeparators (pyStripChars (stripCurrency s.data))) ∧
    (∀ l : List Char,
      resolveSeparators l =
        if l.contains ',' && l.contains '.' then
          if firstIdxD '.' l < firstIdxD ',' l then
            (l.filter (fun c => c ≠ '.')).map
              (fun c => if c = ',' then '.' else c)
          else l.filter (fun c => c ≠ ',')
        else if l.contains ',' then
          l.map (fun c => if c = ',' then '.' else c)
        else l.filter (fun c => c ≠ '.')) ∧
    clean_price (RawCell.textCell "1.400,50") = some (2801 / 2) ∧
    clean_price (RawCell.textCell "2,115") = some (423 / 200) ∧
    clean_price (RawCell.textCell "1,000.50") = some (2001 / 2) ∧
    clean_price (RawCell.textCell "1.500") = some 1500 := by
  refine ⟨?_, fun l => rfl, ?_, ?_, ?_, by decide⟩
  · rw [clean_price_text, if_neg h]
  · have e : clean_price (RawCell.textCell "1.400,50") =
        some (mkRat 140050 100) := by decide
    rw [e, Rat.mkRat_eq_div]
    norm_num
  · have e : clean_price (RawCell.textCell "2,115") =
        some (mkRat 2115 1000) := by decide
    rw [e, Rat.mkRat_eq_div]
    norm_num
  · have e : clean_price (RawCell.textCell "1,000.50") =
        some (mkRat 100050 100) := by decide
    rw [e, Rat.mkRat_eq_div]
    norm_num

/-- Witness for C3 at the latin-format string `"1.400,50"`. -/
theorem c3_witness :
    pyStrip "1.400,50" ≠ "-" ∧
    clean_price (RawCell.textCell "1.400,50") = some (2801 / 2) :=
  ⟨by decide, (c3_separator_rule "1.400,50" (by decide)).2.2.1⟩

/-- C4: `extract_ticker` is `none` on a missing symbol; otherwise it is
the whitespace-trimmed part before the first `|`, and exactly on the USD
file, when that part ends in `D`, the single trailing `D` is removed;
the local file never strips a suffix.  The claim's two examples hold. -/
theorem c4_extract_ticker :
    (∀ b, extract_ticker none b = none) ∧
    (∀ s : String,
      extract_ticker (some s) false =
        some (pyStrip ⟨takeBefore '|' s.data⟩) ∧
      extract_ticker (some s) true =
        some (if endsD (pyStrip ⟨takeBefore '|' s.data⟩) then
                chopLast (pyStrip ⟨takeBefore '|' s.data⟩)
              else pyStrip ⟨takeBefore '|' s.data⟩)) ∧
    extract_ticker (some "AAPLD| NASDAQ") true = some "AAPL" ∧
    extract_ticker (some "GGAL| BYMA") false = some "GGAL" := by
  refine ⟨fun b => rfl, fun s => ⟨?_, ?_⟩, by decide, by decide⟩
  · simp [extract_ticker]
  · cases hd : endsD (pyStrip ⟨takeBefore '|' s.data⟩) <;>
      simp [extract_ticker, hd]

/-- C5 counterexample: a foreign price cell that parses to an explicit
zero survives the loader (there is no positivity guard), so the inner
join delivers a matched record whose foreign-side divisor is `0`, which
is not strictly positive, to the implied-rate division. -/
theorem c5_counterexample :
    processRows [⟨some "GGALD| NASDAQ", RawCell.textCell "0"⟩] true =
      [("GGAL", 0)] ∧
    matchRecords
        (processRows [⟨some "GGAL| BYMA", RawCell.textCell "1000"⟩] false)
        (processRows [⟨some "GGALD| NASDAQ", RawCell.textCell "0"⟩] true) =
      [("GGAL", 1000, 0)] ∧
    ¬ ((0 : ℚ) > 0) := by
  refine ⟨by decide, by decide, by norm_num⟩

/-- C5 amended: single-price mode has no upstream positivity guard — a
row whose ticker parses and whose price parses to exactly `0` is kept by
the loader, so a zero foreign divisor can reach the implied-rate
division (which the source evaluates to an infinite float). -/
theorem c5_amended (r : Row) (b : Bool) (t : String)
    (ht : extract_ticker r.simbolo b = some t)
    (hp : clean_price r.ultimoPrecio = some 0) :
    processRows [r] b = [(t, 0)] := by
  simp [processRows, List.filterMap_cons, ht, hp]

/-- Witness for C5 at the USD row `("GGALD| NASDAQ", "0")`. -/
theorem c5_witness :
    extract_ticker (some "GGALD| NASDAQ") true = some "GGAL" ∧
    clean_price (RawCell.textCell "0") = some 0 ∧
    processRows [⟨some "GGALD| NASDAQ", RawCell.textCell "0"⟩] true =
      [("GGAL", 0)] :=
  ⟨by decide, by decide,
   c5_amended ⟨some "GGALD| NASDAQ", RawCell.textCell "0"⟩ true "GGAL"
     (by decide) (by decide)⟩

/-- C6: every computed row carries `implied_rate = local_price /
foreign_price` and `gap_percent = ((implied_rate / reference_rate) - 1) *
100` (quoted at a nonzero foreign divisor, where the source's float
division is exact); joining the singleton local set `("GGAL", 1000)` with
the singleton foreign set `("GGAL", 1)` yields exactly one row with
implied rate `1000`, whose gap against the reference rate `900` is
`100/9`, within `0.01` of `11.11`. -/
theorem c6_rate_and_gap (merged : List (String × ℚ × ℚ)) (ref : ℚ)
    (row : AnalysisRow) (hrow : row ∈ computeRows merged ref)
    (hpos : 0 < row.precioUsd) :
    (row.tcImplicito = row.precioArs / row.precioUsd ∧
      row.gapPercent = ((row.tcImplicito / ref) - 1) * 100) ∧
    computeRows (matchRecords [("GGAL", (1000 : ℚ))] [("GGAL", (1 : ℚ))])
        900 =
      [{ ticker := "GGAL", precioArs := 1000, precioUsd := 1,
         tcImplicito := 1000, gapPercent := 100 / 9 }] ∧
    |(100 : ℚ) / 9 - 1111 / 100| < 1 / 100 := by
  obtain ⟨m, hm, rfl⟩ := List.mem_map.mp hrow
  refine ⟨⟨rfl, rfl⟩, ?_, ?_⟩
  · have e : matchRecords [("GGAL", (1000 : ℚ))] [("GGAL", (1 : ℚ))] =
        [("GGAL", 1000, 1)] := by decide
    rw [e]
    simp only [computeRows, List.map_cons, List.map_nil,
      List.cons.injEq, and_true, AnalysisRow.mk.injEq]
    norm_num
  · rw [abs_sub_lt_iff]
    constructor <;> norm_num

/-- Witness for C6 at the single matched record `("GGAL", 1000, 1)`. -/
theorem c6_witness :
    (AnalysisRow.mk "GGAL" 1000 1 1000 (100 / 9)).tcImplicito =
      (AnalysisRow.mk "GGAL" 1000 1 1000 (100 / 9)).precioArs /
        (AnalysisRow.mk "GGAL" 1000 1 1000 (100 / 9)).precioUsd :=
  ((c6_rate_and_gap [("GGAL", 1000, 1)] 900
      (AnalysisRow.mk "GGAL" 1000 1 1000 (100 / 9))
      (by simp [computeRows, AnalysisRow.mk.injEq]; norm_num)
      (by norm_num)).1).1

/-- C7: in single-price mode the loader's output consists of exactly the
rows whose normalized ticker and normalized price are both non-null, in
order; a row whose price explicitly parsed to zero is retained. -/
theorem c7_loader_filter (rows : List Row) (b : Bool) :
    processRows rows b =
      (rows.filter (fun r =>
          (extract_ticker r.simbolo b).isSome &&
            (clean_price r.ultimoPrecio).isSome)).map
        (fun r =>
          ((extract_ticker r.simbolo b).getD "",
            (clean_price r.ultimoPrecio).getD 0)) ∧
    (∀ r ∈ rows, ∀ t, extract_ticker r.simbolo b = some t →
        clean_price r.ultimoPrecio = some 0 →
        (t, (0 : ℚ)) ∈ processRows rows b) := by
  constructor
  · induction rows with
    | nil => rfl
    | cons r rs ih =>
      cases hx : extract_ticker r.simbolo b <;>
        cases hp : clean_price r.ultimoPrecio <;>
          simp [processRows, List.filterMap_cons, List.filter_cons, hx,
            hp] <;>
          exact ih
  · intro r hr t ht hp
    show (t, (0 : ℚ)) ∈ rows.filterMap _
    exact List.mem_filterMap.mpr ⟨r, hr, by simp [ht, hp]⟩

/-- Witness for C7 at a zero-price row. -/
theorem c7_witness :
    (Row.mk (some "A| X") (RawCell.textCell "0")) ∈
      [Row.mk (some "A| X") (RawCell.textCell "0")] ∧
    ("A", (0 : ℚ)) ∈
      processRows [Row.mk (some "A| X") (RawCell.textCell "0")] false :=
  ⟨by decide,
   (c7_loader_filter [Row.mk (some "A| X") (RawCell.textCell "0")]
      false).2 (Row.mk (some "A| X") (RawCell.textCell "0")) (by decide)
      "A" (by decide) (by decide)⟩

/-- C8: `find_header_row` returns the index of the first row containing a
cell whose string form contains the marker `Símbolo` case-insensitively;
it returns `0` when no row matches; and a grid whose row `0` already
carries the header yields `0`. -/
theorem c8_header_discovery (g : List (List RawCell)) :
    (∀ i row, g.get? i = some row → rowHasSimbolo row = true →
        (∀ r ∈ g.take i, rowHasSimbolo r = false) →
        find_header_row g = i) ∧
    ((∀ r ∈ g, rowHasSimbolo r = false) → find_header_row g = 0) ∧
    (∀ row rest, rowHasSimbolo row = true →
        find_header_row (row :: rest) = 0) := by
  refine ⟨?_, ?_, ?_⟩
  · intro i row hget hp hprev
    rw [find_header_row, findHeaderAux_first rowHasSimbolo g i row hget hp hprev]
    rfl
  · intro h
    rw [find_header_row, findHeaderAux_all_false rowHasSimbolo g h]
    rfl
  · intro row rest h
    rw [find_header_row]
    simp [findHeaderAux, h]

/-- Witness for C8: the marker row sits at index 1 beneath a title row. -/
theorem c8_witness :
    find_header_row
      [[RawCell.textCell "Listado de CEDEARs"],
       [RawCell.textCell "SÍMBOLO Cierre"],
       [RawCell.textCell "GGAL"]] = 1 :=
  (c8_header_discovery _).1 1 [RawCell.textCell "SÍMBOLO Cierre"]
    (by decide) (by decide) (by decide)

/-- C9 counterexample: a table lacking only `Último Precio` and a table
lacking only `Símbolo` are rejected with the identical error text, so the
surfaced error does not identify which of the required columns is
missing. -/
theorem c9_counterexample :
    load_and_process ⟨["Símbolo", "Precio"], []⟩ true =
      Except.error (missingColsMessage true) ∧
    load_and_process ⟨["Nombre", "Último Precio"], []⟩ true =
      Except.error (missingColsMessage true) ∧
    ((["Símbolo", "Precio"].map pyStrip).contains "Símbolo" = true) ∧
    ((["Símbolo", "Precio"].map pyStrip).contains "Último Precio" =
      false) ∧
    ((["Nombre", "Último Precio"].map pyStrip).contains "Símbolo" =
      false) :=
  ⟨rfl, rfl, by decide, by decide, by decide⟩

/-- C9 amended: the loader fails exactly when, after trimming every
column name, `Símbolo` or `Último Precio` is absent; the error text names
the failing file (`USD` against `ARS`) but always lists the fixed
required pair rather than which columns are missing; each file is
processed by its own independent call. -/
theorem c9_amended (t : Table) (b : Bool) :
    ((∃ out, load_and_process t b = Except.ok out) ↔
      (((t.cols.map pyStrip).contains "Símbolo" = true) ∧
        ((t.cols.map pyStrip).contains "Último Precio" = true))) ∧
    (requiredColsPresent t = false →
      load_and_process t b = Except.error (missingColsMessage b)) ∧
    containsSub ("USD".data) ((missingColsMessage true).data) = true ∧
    containsSub ("ARS".data) ((missingColsMessage false).data) = true ∧
    missingColsMessage true ≠ missingColsMessage false := by
  refine ⟨⟨?_, ?_⟩, ?_, by decide, by decide, by decide⟩
  · rintro ⟨out, hout⟩
    by_cases h : requiredColsPresent t = true
    · simpa [requiredColsPresent, Bool.and_eq_true] using h
    · simp [load_and_process, h] at hout
  · rintro ⟨h1, h2⟩
    have h : requiredColsPresent t = true := by
      unfold requiredColsPresent
      rw [h1, h2]
      rfl
    exact ⟨processRows t.rows b, by simp [load_and_process, h]⟩
  · intro h
    simp [load_and_process, h]

/-- Witness for C9 at a well-formed column list. -/
theorem c9_witness :
    ∃ out, load_and_process ⟨["Símbolo", "Último Precio "], []⟩ false =
      Except.ok out :=
  (c9_amended ⟨["Símbolo", "Último Precio "], []⟩ false).1.mpr
    ⟨by decide, by decide⟩

/-- C10: a present symbol whose part before the first `|` trims to the
empty string — or, on the USD side, to the bare suffix `D` — yields the
empty-string ticker rather than `None`; such rows survive the loader's
`dropna` and empty-string tickers from the two files match each other in
the join. -/
theorem c10_empty_ticker :
    (∀ (s : String) (b : Bool), pyStrip ⟨takeBefore '|' s.data⟩ = "" →
        extract_ticker (some s) b = some "") ∧
    (∀ s : String, pyStrip ⟨takeBefore '|' s.data⟩ = "D" →
        extract_ticker (some s) true = some "") ∧
    processRows [⟨some "| BYMA", RawCell.textCell "5"⟩] false =
      [("", 5)] ∧
    processRows [⟨some "D| NASDAQ", RawCell.textCell "2"⟩] true =
      [("", 2)] ∧
    (∀ p q : ℚ, matchRecords [("", p)] [("", q)] = [("", p, q)]) := by
  refine ⟨?_, ?_, by decide, by decide, ?_⟩
  · intro s b h
    simp [extract_ticker, h, endsD]
  · intro s h
    simp [extract_ticker, h, endsD, chopLast]
  · intro p q
    simp [matchRecords]

/-- Witness for C10 at the symbols `"| BYMA"` and `"D| NASDAQ"`. -/
theorem c10_witness :
    extract_ticker (some "| BYMA") false = some "" ∧
    extract_ticker (some "D| NASDAQ") true = some "" :=
  ⟨c10_empty_ticker.1 "| BYMA" false (by decide),
   c10_empty_ticker.2.1 "D| NASDAQ" (by decide)⟩

end Cedear
